import Mathlib

/-!
Verification development for the watermark CLI (src/index.js).

Modelling conventions:
* JavaScript strings are modelled as `List Char`.
* JavaScript numbers are modelled as exact rationals (`ℚ`); `Math.floor`
  is `Int.floor`, and integer-valued quantities (pixel sizes, offsets)
  live in `ℤ`/`ℕ`.
* `String.prototype.replace` with a global single-character regex is the
  character-wise global replacement `replaceChar`; with a plain string
  pattern it replaces only the first occurrence (`replaceFirst`).
-/

namespace WatermarkCLI

/-- The apostrophe character (code point 39). -/
def apos : Char := Char.ofNat 39

/-- Global replacement of every occurrence of the single character `pat`
by the string `rep`, as performed by `str.replace(/pat/g, rep)`. -/
def replaceChar (pat : Char) (rep : List Char) : List Char → List Char
  | [] => []
  | x :: xs =>
    if x = pat then rep ++ replaceChar pat rep xs
    else x :: replaceChar pat rep xs

/-- XML entity for the ampersand. -/
def ampEnt : List Char := ['&', 'a', 'm', 'p', ';']

/-- XML entity for the less-than sign. -/
def ltEnt : List Char := ['&', 'l', 't', ';']

/-- XML entity for the greater-than sign. -/
def gtEnt : List Char := ['&', 'g', 't', ';']

/-- XML entity for the double quote. -/
def quotEnt : List Char := ['&', 'q', 'u', 'o', 't', ';']

/-- XML numeric entity for the apostrophe. -/
def aposEnt : List Char := ['&', '#', '3', '9', ';']

/-- Embedding of `escapeXML` (src/index.js lines 57-64): the five global
replacements applied in source order, ampersand first. -/
def escapeXML (s : List Char) : List Char :=
  replaceChar apos aposEnt
    (replaceChar '"' quotEnt
      (replaceChar '>' gtEnt
        (replaceChar '<' ltEnt
          (replaceChar '&' ampEnt s))))

/-- Character-wise view of the escaping map: what a single character of
the input contributes to the output of `escapeXML`. -/
def escapeChar (c : Char) : List Char :=
  if c = '&' then ampEnt
  else if c = '<' then ltEnt
  else if c = '>' then gtEnt
  else if c = '"' then quotEnt
  else if c = apos then aposEnt
  else [c]

/-- Decoder for the five XML entities produced by `escapeXML`; any other
character is passed through unchanged. -/
def decode : List Char → List Char
  | [] => []
  | c :: rest =>
    if c = '&' then
      if rest.take 4 = ['a', 'm', 'p', ';'] then '&' :: decode (rest.drop 4)
      else if rest.take 3 = ['l', 't', ';'] then '<' :: decode (rest.drop 3)
      else if rest.take 3 = ['g', 't', ';'] then '>' :: decode (rest.drop 3)
      else if rest.take 5 = ['q', 'u', 'o', 't', ';'] then '"' :: decode (rest.drop 5)
      else if rest.take 4 = ['#', '3', '9', ';'] then apos :: decode (rest.drop 4)
      else c :: decode rest
    else c :: decode rest
termination_by l => l.length
decreasing_by all_goals simp [List.length_drop] <;> omega

theorem replaceChar_append (pat : Char) (rep l₁ l₂ : List Char) :
    replaceChar pat rep (l₁ ++ l₂) =
      replaceChar pat rep l₁ ++ replaceChar pat rep l₂ := by
  induction l₁ with
  | nil => rfl
  | cons x xs ih =>
    by_cases h : x = pat <;> simp [replaceChar, h, ih]

theorem escapeXML_nil : escapeXML [] = [] := rfl

theorem escapeXML_cons (c : Char) (s : List Char) :
    escapeXML (c :: s) = escapeChar c ++ escapeXML s := by
  by_cases h1 : c = '&'
  · subst h1
    simp [escapeXML, escapeChar, replaceChar, replaceChar_append, ampEnt, apos]
  · by_cases h2 : c = '<'
    · subst h2
      simp [escapeXML, escapeChar, replaceChar, replaceChar_append, ltEnt, apos]
    · by_cases h3 : c = '>'
      · subst h3
        simp [escapeXML, escapeChar, replaceChar, replaceChar_append, gtEnt, apos]
      · by_cases h4 : c = '"'
        · subst h4
          simp [escapeXML, escapeChar, replaceChar, replaceChar_append, quotEnt, apos]
        · by_cases h5 : c = apos
          · subst h5
            simp [escapeXML, escapeChar, replaceChar, replaceChar_append, aposEnt, apos]
          · simp [escapeXML, escapeChar, replaceChar, h1, h2, h3, h4, h5]

theorem escapeChar_no_raw (c d : Char)
    (hd : d = '<' ∨ d = '>' ∨ d = '"' ∨ d = apos) : d ∉ escapeChar c := by
  by_cases h1 : c = '&'
  · subst h1
    rcases hd with h | h | h | h <;> subst h <;> simp [escapeChar, ampEnt, apos]
  · by_cases h2 : c = '<'
    · subst h2
      rcases hd with h | h | h | h <;> subst h <;> simp [escapeChar, ltEnt, apos]
    · by_cases h3 : c = '>'
      · subst h3
        rcases hd with h | h | h | h <;> subst h <;> simp [escapeChar, gtEnt, apos]
      · by_cases h4 : c = '"'
        · subst h4
          rcases hd with h | h | h | h <;> subst h <;> simp [escapeChar, quotEnt, apos]
        · by_cases h5 : c = apos
          · subst h5
            rcases hd with h | h | h | h <;> subst h <;> simp [escapeChar, aposEnt, apos]
          · simp only [escapeChar, if_neg h1, if_neg h2, if_neg h3, if_neg h4, if_neg h5]
            intro hmem
            rw [List.mem_singleton] at hmem
            subst hmem
            rcases hd with h | h | h | h
            · exact h2 h
            · exact h3 h
            · exact h4 h
            · exact h5 h

theorem decode_escapeXML (s : List Char) : decode (escapeXML s) = s := by
  induction s with
  | nil => simp [escapeXML_nil, decode]
  | cons c s ih =>
    rw [escapeXML_cons]
    by_cases h1 : c = '&'
    · subst h1
      simpa [escapeChar, ampEnt, decode, List.take, List.drop] using ih
    · by_cases h2 : c = '<'
      · subst h2
        simpa [escapeChar, ltEnt, decode, apos, List.take, List.drop] using ih
      · by_cases h3 : c = '>'
        · subst h3
          simpa [escapeChar, gtEnt, decode, apos, List.take, List.drop] using ih
        · by_cases h4 : c = '"'
          · subst h4
            simpa [escapeChar, quotEnt, decode, apos, List.take, List.drop] using ih
          · by_cases h5 : c = apos
            · subst h5
              simpa [escapeChar, aposEnt, decode, apos, List.take, List.drop] using ih
            · have hamp : c ≠ '&' := h1
              simp only [escapeChar, if_neg h1, if_neg h2, if_neg h3, if_neg h4, if_neg h5,
                List.cons_append, List.nil_append]
              rw [decode]
              simp [if_neg hamp, ih]

/-- C9: every occurrence of the five XML-special characters is replaced by
its entity (this is the definition of `escapeXML`, built from the five
source-order global replacements), the escaped string contains no raw
`<`, `>`, double quote or apostrophe, and the original content is
recoverable: `decode` inverts `escapeXML` on every input. -/
theorem escapeXML_no_raw_and_roundtrip (s : List Char) :
    ('<' ∉ escapeXML s ∧ '>' ∉ escapeXML s ∧
      '"' ∉ escapeXML s ∧ apos ∉ escapeXML s) ∧
    decode (escapeXML s) = s := by
  refine ⟨?_, decode_escapeXML s⟩
  induction s with
  | nil => simp [escapeXML_nil]
  | cons c s ih =>
    rw [escapeXML_cons]
    refine ⟨?_, ?_, ?_, ?_⟩ <;> rw [List.mem_append] <;>
      rintro (h | h)
    · exact escapeChar_no_raw c '<' (by simp) h
    · exact ih.1 h
    · exact escapeChar_no_raw c '>' (by simp) h
    · exact ih.2.1 h
    · exact escapeChar_no_raw c '"' (by simp) h
    · exact ih.2.2.1 h
    · exact escapeChar_no_raw c apos (by simp) h
    · exact ih.2.2.2 h

/-- Target watermark width computed by `applyWatermark`
(src/index.js line 182): `Math.floor(baseWidth * scale)`. -/
def computeTargetW (baseWidth : ℕ) (scale : ℚ) : ℤ :=
  ⌊(baseWidth : ℚ) * scale⌋

/-- Aspect ratio computed by `applyWatermark` (src/index.js line 185):
`wmMeta.width ? targetW / wmMeta.width : 1`.  The watermark metadata
width is an `Option ℕ` (`none` models an `undefined` field; `0` is also
falsy in JavaScript). -/
def computeRatio (wmWidth : Option ℕ) (targetW : ℤ) : ℚ :=
  match wmWidth with
  | some w => if w = 0 then 1 else (targetW : ℚ) / (w : ℚ)
  | none => 1

/-- Target watermark height computed by `applyWatermark`
(src/index.js line 186):
`wmMeta.height ? Math.floor(wmMeta.height * ratio) : Math.floor(targetW * 0.5)`. -/
def computeTargetH (wmWidth wmHeight : Option ℕ) (targetW : ℤ) : ℤ :=
  match wmHeight with
  | some h =>
    if h = 0 then ⌊(targetW : ℚ) * (1 / 2)⌋
    else ⌊(h : ℚ) * computeRatio wmWidth targetW⌋
  | none => ⌊(targetW : ℚ) * (1 / 2)⌋

/-- Pixel offset of the watermark computed by the `switch (position)`
statement of `applyWatermark` (src/index.js lines 212-236); the `center`
case and the `default` case share one body, so every unrecognized
position string lands on the centering formula.  `Math.floor(x / 2)` on
integers is `Int.fdiv x 2`. -/
def computePosition (position : List Char) (baseW baseH targetW targetH : ℤ) : ℤ × ℤ :=
  if position = "top-left".toList then (0, 0)
  else if position = "top-right".toList then (baseW - targetW, 0)
  else if position = "bottom-left".toList then (0, baseH - targetH)
  else if position = "bottom-right".toList then (baseW - targetW, baseH - targetH)
  else ((baseW - targetW).fdiv 2, (baseH - targetH).fdiv 2)

/-- C1: the resized watermark width is `floor(baseWidth * scale)`; when
both source dimensions are known (positive), the height preserves the
source aspect ratio, `targetH = floor(sourceH * targetW / sourceW)`;
when the source dimensions are unknown, the height falls back to
`floor(targetW * 0.5)`. -/
theorem applyWatermark_target_dims (baseWidth : ℕ) (scale : ℚ) (w h : ℕ)
    (hw : 0 < w) (hh : 0 < h) :
    computeTargetW baseWidth scale = ⌊(baseWidth : ℚ) * scale⌋ ∧
    computeTargetH (some w) (some h) (computeTargetW baseWidth scale) =
      ⌊(h : ℚ) * (computeTargetW baseWidth scale : ℚ) / (w : ℚ)⌋ ∧
    computeTargetH none none (computeTargetW baseWidth scale) =
      ⌊(computeTargetW baseWidth scale : ℚ) * (1 / 2)⌋ := by
  refine ⟨rfl, ?_, rfl⟩
  simp only [computeTargetH, computeRatio, if_neg (Nat.pos_iff_ne_zero.mp hh),
    if_neg (Nat.pos_iff_ne_zero.mp hw)]
  rw [mul_div_assoc]

/-- Witness for `applyWatermark_target_dims`: a 1000-wide base at scale
`0.7` with an 80×20 watermark source gives `targetW = 700` and
`targetH = floor(20 * 700 / 80) = 175`. -/
theorem applyWatermark_target_dims_witness :
    computeTargetW 1000 (7 / 10) = 700 ∧
    computeTargetH (some 80) (some 20) (computeTargetW 1000 (7 / 10)) = 175 ∧
    computeTargetH none none (computeTargetW 1000 (7 / 10)) = 350 := by
  have h := applyWatermark_target_dims 1000 (7 / 10) 80 20
    (by norm_num) (by norm_num)
  refine ⟨?_, ?_, ?_⟩
  · rw [h.1]; norm_num [Int.floor_eq_iff]
  · rw [h.2.1]
    have h1 : computeTargetW 1000 (7 / 10) = 700 := by
      rw [h.1]; norm_num [Int.floor_eq_iff]
    rw [h1]; norm_num [Int.floor_eq_iff]
  · rw [h.2.2]
    have h1 : computeTargetW 1000 (7 / 10) = 700 := by
      rw [h.1]; norm_num [Int.floor_eq_iff]
    rw [h1]; norm_num [Int.floor_eq_iff]

/-- C2: the computed pixel offset is `(0,0)` for `top-left`,
`(baseW - targetW, 0)` for `top-right`, `(0, baseH - targetH)` for
`bottom-left`, `(baseW - targetW, baseH - targetH)` for `bottom-right`,
the centering formula `(floor((baseW-targetW)/2), floor((baseH-targetH)/2))`
for `center` and for every unrecognized position string; and on a
1000×800 base with scale `0.5` and anchor `top-right`, `targetW = 500`,
`offsetX = 500`, `offsetY = 0`. -/
theorem applyWatermark_offsets (baseW baseH tW tH : ℤ) (p : List Char)
    (hp1 : p ≠ "top-left".toList) (hp2 : p ≠ "top-right".toList)
    (hp3 : p ≠ "bottom-left".toList) (hp4 : p ≠ "bottom-right".toList) :
    computePosition "top-left".toList baseW baseH tW tH = (0, 0) ∧
    computePosition "top-right".toList baseW baseH tW tH = (baseW - tW, 0) ∧
    computePosition "bottom-left".toList baseW baseH tW tH = (0, baseH - tH) ∧
    computePosition "bottom-right".toList baseW baseH tW tH =
      (baseW - tW, baseH - tH) ∧
    computePosition "center".toList baseW baseH tW tH =
      ((baseW - tW).fdiv 2, (baseH - tH).fdiv 2) ∧
    (computeTargetW 1000 (1 / 2) = 500 ∧
      computePosition "top-right".toList 1000 800 500 400 = (500, 0)) ∧
    computePosition p baseW baseH tW tH =
      ((baseW - tW).fdiv 2, (baseH - tH).fdiv 2) := by
  refine ⟨by simp [computePosition], by simp [computePosition],
    by simp [computePosition], by simp [computePosition],
    by simp [computePosition], ⟨?_, by simp [computePosition]⟩, ?_⟩
  · show ⌊(1000 : ℚ) * (1 / 2)⌋ = 500
    norm_num
  · simp only [computePosition, if_neg hp1, if_neg hp2, if_neg hp3, if_neg hp4]

/-- Witness for `applyWatermark_offsets`: the unrecognized position
string `diagonal` also lands on the centering formula. -/
theorem applyWatermark_offsets_witness :
    computePosition "diagonal".toList 10 8 4 2 = (3, 3) := by
  have h := applyWatermark_offsets 10 8 4 2 "diagonal".toList
    (by decide) (by decide) (by decide) (by decide)
  rw [h.2.2.2.2.2.2]
  decide

/-- C3: for a positive base width and a scale ratio in `(0, 1]`,
`targetW = floor(baseW * scale) ≤ baseW`; the `center` offset
`offsetX = floor((baseW - targetW)/2)` is non-negative whenever
`targetW ≤ baseW`; and for `bottom-right` the identities
`offsetX + targetW = baseW` and `offsetY + targetH = baseH` hold
exactly. -/
theorem applyWatermark_geometry_bounds (baseWidth baseHeight : ℕ) (scale : ℚ)
    (tH : ℤ) (hbw : 0 < baseWidth) (h0 : 0 < scale) (h1 : scale ≤ 1) :
    computeTargetW baseWidth scale ≤ (baseWidth : ℤ) ∧
    (∀ tW : ℤ, tW ≤ (baseWidth : ℤ) →
      (computePosition "center".toList baseWidth baseHeight tW tH).1 =
        ((baseWidth : ℤ) - tW).fdiv 2 ∧
      0 ≤ (computePosition "center".toList baseWidth baseHeight tW tH).1) ∧
    (∀ tW : ℤ,
      (computePosition "bottom-right".toList baseWidth baseHeight tW tH).1 + tW =
        (baseWidth : ℤ) ∧
      (computePosition "bottom-right".toList baseWidth baseHeight tW tH).2 + tH =
        (baseHeight : ℤ)) := by
  refine ⟨?_, ?_, ?_⟩
  · have hle : (baseWidth : ℚ) * scale ≤ (baseWidth : ℚ) := by
      calc (baseWidth : ℚ) * scale ≤ (baseWidth : ℚ) * 1 :=
            mul_le_mul_of_nonneg_left h1 (by positivity)
        _ = (baseWidth : ℚ) := mul_one _
    calc computeTargetW baseWidth scale ≤ ⌊(baseWidth : ℚ)⌋ := Int.floor_mono hle
      _ = (baseWidth : ℤ) := Int.floor_natCast baseWidth
  · intro tW htW
    have hfst : (computePosition "center".toList baseWidth baseHeight tW tH).1 =
        ((baseWidth : ℤ) - tW).fdiv 2 := by
      simp [computePosition]
    refine ⟨hfst, ?_⟩
    rw [hfst]
    exact Int.fdiv_nonneg (by omega) (by norm_num)
  · intro tW
    constructor <;> simp [computePosition]

/-- Witness for `applyWatermark_geometry_bounds`: on a 1000×800 base at
scale `0.5` the target width stays within the base width, and with
`targetW = 500` the center horizontal offset is non-negative. -/
theorem applyWatermark_geometry_bounds_witness :
    computeTargetW 1000 (1 / 2) ≤ (1000 : ℤ) ∧
    0 ≤ (computePosition "center".toList 1000 800 500 250).1 :=
  ⟨(applyWatermark_geometry_bounds 1000 800 (1 / 2) 250 (by norm_num)
      (by norm_num) (by norm_num)).1,
    ((applyWatermark_geometry_bounds 1000 800 (1 / 2) 250 (by norm_num)
      (by norm_num) (by norm_num)).2.1 500 (by norm_num)).2⟩

/-- One operation of the sharp processing chain applied to the watermark
buffer in `applyWatermark` (src/index.js lines 176-209). -/
inductive PipeStep
  /-- Step for `ensureAlpha()`: normalize the buffer to RGBA. -/
  | ensureAlpha
  /-- Step for `png()`: (re-)encode the buffer as PNG. -/
  | pngEncode
  /-- Step for `resize(\x7b width, height \x7d)`. -/
  | resize (w hgt : ℤ)
  /-- Step for `composite([\x7b input, blend: dest-in \x7d])` against a solid
  `w`×`hgt` layer of uniform alpha `alpha`. -/
  | compositeDestIn (w hgt : ℤ) (alpha : ℚ)
deriving DecidableEq

/-- Watermark processing chain of `applyWatermark` in source order
(src/index.js lines 176-209): `ensureAlpha().png()`, then
`resize(targetW, targetH)`, then — only when `!isTextWatermark &&
opacity < 1.0` — a `dest-in` composite against a solid layer of alpha
`opacity` at the resized dimensions, then the final `png()` re-encode. -/
def watermarkPipeline (isTextWatermark : Bool) (opacity : ℚ)
    (targetW targetH : ℤ) : List PipeStep :=
  [PipeStep.ensureAlpha, PipeStep.pngEncode, PipeStep.resize targetW targetH]
    ++ (if !isTextWatermark && decide (opacity < 1) then
          [PipeStep.compositeDestIn targetW targetH opacity]
        else [])
    ++ [PipeStep.pngEncode]

/-- Shallow embedding of the SVG document built by
`createTextWatermarkSVG` (src/index.js lines 128-155): the canvas size,
the coordinates of the text element and content, and the attributes of its
CSS class. -/
structure TextSVG where
  /-- Canvas width: `Math.max(500, text.length * fontSize * 0.8)`. -/
  width : ℚ
  /-- Canvas height: `fontSize * 2`. -/
  height : ℚ
  /-- The `x` coordinate of the text element: `width / 2`. -/
  textX : ℚ
  /-- The `y` coordinate of the text element: `height / 2 + fontSize / 3`
  (baseline correction). -/
  textY : ℚ
  /-- The `fill` of the `.text` class: the user color. -/
  fill : List Char
  /-- The `fill-opacity` of the `.text` class. -/
  fillOpacity : ℚ
  /-- The font family of the `.text` class. -/
  fontFamilyCss : List Char
  /-- The `font-size` in pixels. -/
  fontSizePx : ℕ
  /-- The `font-weight`: `bold` or `normal`. -/
  fontWeight : List Char
  /-- The `font-style`: `italic` or `normal`. -/
  fontStyle : List Char
  /-- The `text-anchor` of the `.text` class. -/
  textAnchor : List Char
  /-- The `dominant-baseline` of the `.text` class. -/
  dominantBaseline : List Char
  /-- The character data of the text element: the escaped user text. -/
  textContent : List Char

/-- Embedding of `createTextWatermarkSVG` (src/index.js lines 128-155). -/
def createTextWatermarkSVG (text : List Char) (fontFamily : List Char)
    (fontSize : ℕ) (color : List Char) (bold italic : Bool)
    (opacity : ℚ) : TextSVG :=
  let weight := if bold then "bold".toList else "normal".toList
  let style := if italic then "italic".toList else "normal".toList
  let width : ℚ := max 500 ((text.length : ℚ) * (fontSize : ℚ) * (8 / 10))
  let height : ℚ := (fontSize : ℚ) * 2
  let centerX : ℚ := width / 2
  let centerY : ℚ := height / 2 + (fontSize : ℚ) / 3
  { width := width
    height := height
    textX := centerX
    textY := centerY
    fill := color
    fillOpacity := opacity
    fontFamilyCss := fontFamily
    fontSizePx := fontSize
    fontWeight := weight
    fontStyle := style
    textAnchor := "middle".toList
    dominantBaseline := "middle".toList
    textContent := escapeXML text }

/-- C4: on the image-watermark path the alpha pass runs exactly when
`opacity < 1` — the chain is then resize followed by a `dest-in`
composite against a solid layer of alpha `opacity` at the resized
dimensions, followed by the PNG re-encode — and when `opacity ≥ 1` no
such pass appears; on the text-watermark path no `dest-in` pass ever
appears, and the opacity is instead baked into the fill of the
generated SVG (`fill-opacity` equals the session opacity). -/
theorem applyWatermark_opacity_asymmetry (opacity : ℚ) (tW tH : ℤ) :
    (opacity < 1 →
      watermarkPipeline false opacity tW tH =
        [PipeStep.ensureAlpha, PipeStep.pngEncode, PipeStep.resize tW tH,
          PipeStep.compositeDestIn tW tH opacity, PipeStep.pngEncode]) ∧
    (1 ≤ opacity →
      watermarkPipeline false opacity tW tH =
        [PipeStep.ensureAlpha, PipeStep.pngEncode, PipeStep.resize tW tH,
          PipeStep.pngEncode]) ∧
    (∀ w hgt alpha, PipeStep.compositeDestIn w hgt alpha ∉
      watermarkPipeline true opacity tW tH) ∧
    (∀ text fontFamily fontSize color bold italic,
      (createTextWatermarkSVG text fontFamily fontSize color bold italic
        opacity).fillOpacity = opacity) := by
  refine ⟨?_, ?_, ?_, ?_⟩
  · intro hlt
    simp [watermarkPipeline, hlt]
  · intro hge
    simp [watermarkPipeline, not_lt.mpr hge]
  · intro w hgt alpha
    simp [watermarkPipeline]
  · intro text fontFamily fontSize color bold italic
    rfl

/-- Witness for `applyWatermark_opacity_asymmetry`: at the default
opacity `0.5`, the image-watermark chain for a 300×200 target contains
the `dest-in` alpha pass right after the resize. -/
theorem applyWatermark_opacity_asymmetry_witness :
    watermarkPipeline false (1 / 2) 300 200 =
      [PipeStep.ensureAlpha, PipeStep.pngEncode, PipeStep.resize 300 200,
        PipeStep.compositeDestIn 300 200 (1 / 2), PipeStep.pngEncode] :=
  (applyWatermark_opacity_asymmetry (1 / 2) 300 200).1 (by norm_num)

/-- C8: the generated SVG canvas has width
`max(500, len(content) * fontSize * 0.8)` (so the width accommodates
the text: it is at least `len * fontSize * 0.8` and at least 500) and
height `fontSize * 2`; the text element is horizontally centered
(`x = width / 2` with `text-anchor: middle`) and vertically centered
(`dominant-baseline: middle` with `y` at `height / 2` plus the
`fontSize / 3` baseline correction from the source). -/
theorem createTextWatermarkSVG_canvas (text fontFamily : List Char)
    (fontSize : ℕ) (color : List Char) (bold italic : Bool) (opacity : ℚ) :
    (createTextWatermarkSVG text fontFamily fontSize color bold italic
        opacity).width =
      max 500 ((text.length : ℚ) * (fontSize : ℚ) * (8 / 10)) ∧
    (text.length : ℚ) * (fontSize : ℚ) * (8 / 10) ≤
      (createTextWatermarkSVG text fontFamily fontSize color bold italic
        opacity).width ∧
    (500 : ℚ) ≤
      (createTextWatermarkSVG text fontFamily fontSize color bold italic
        opacity).width ∧
    (createTextWatermarkSVG text fontFamily fontSize color bold italic
        opacity).height = (fontSize : ℚ) * 2 ∧
    (createTextWatermarkSVG text fontFamily fontSize color bold italic
        opacity).textX =
      (createTextWatermarkSVG text fontFamily fontSize color bold italic
        opacity).width / 2 ∧
    (createTextWatermarkSVG text fontFamily fontSize color bold italic
        opacity).textAnchor = "middle".toList ∧
    (createTextWatermarkSVG text fontFamily fontSize color bold italic
        opacity).textY =
      (createTextWatermarkSVG text fontFamily fontSize color bold italic
        opacity).height / 2 + (fontSize : ℚ) / 3 ∧
    (createTextWatermarkSVG text fontFamily fontSize color bold italic
        opacity).dominantBaseline = "middle".toList := by
  refine ⟨rfl, le_max_right _ _, le_max_left _ _, rfl, rfl, rfl, rfl, rfl⟩

/-- Model of `String.prototype.toLowerCase` (ASCII case folding, which
covers the path and answer strings the program compares). -/
def jsToLower (s : List Char) : List Char := s.map Char.toLower

/-- Model of the Node basename extraction: the portion of the path after
the last separator. -/
def basenameChars (p : List Char) : List Char :=
  (p.reverse.takeWhile (fun c => c ≠ '/')).reverse

/-- Model of the Node `path.extname`: the suffix of the basename from its
last dot (inclusive); empty when the basename has no dot or when its
only dot is the leading character of a dotfile. -/
def extnameChars (p : List Char) : List Char :=
  let b := basenameChars p
  let r := b.reverse
  let afterDot := r.takeWhile (fun c => c ≠ '.')
  if afterDot.length = r.length then []
  else if afterDot.length + 1 = r.length then []
  else '.' :: afterDot.reverse

/-- Model of `path.parse(p).name`: the basename with its extension
removed. -/
def parseNameChars (p : List Char) : List Char :=
  let b := basenameChars p
  b.take (b.length - (extnameChars p).length)

/-- Embedding of `isSupportedImage` (src/index.js lines 84-87): the
lowercased extension must be `.jpg`, `.jpeg` or `.png`. -/
def isSupportedImage (p : List Char) : Bool :=
  decide (jsToLower (extnameChars p) ∈
    [".jpg".toList, ".jpeg".toList, ".png".toList])

/-- Replacement of only the first occurrence of the character `pat` by
the empty string, as performed by `str.replace('.', '')` with a plain
string pattern. -/
def replaceFirst (pat : Char) : List Char → List Char
  | [] => []
  | x :: xs => if x = pat then xs else x :: replaceFirst pat xs

/-- The output formats accepted by the per-file format check
(src/index.js line 409). -/
def validFormats : List (List Char) :=
  ["jpg".toList, "jpeg".toList, "png".toList]

/-- Embedding of the per-file output-format resolution
(src/index.js lines 407-412): the user format is kept when it is one of
`jpg`/`jpeg`/`png`; otherwise the lowercased extension of the file itself
(without the dot) is used, normalizing `jpeg` to `jpg`. -/
def resolveOutFormat (format inputFile : List Char) : List Char :=
  let ext := replaceFirst '.' (jsToLower (extnameChars inputFile))
  if format ∈ validFormats then format
  else if ext = "jpeg".toList then "jpg".toList else ext

/-- Embedding of `generateOutputName` (src/index.js lines 117-121):
`path.join(outputDir, parsed.name + _watermarked. + format)`, with
`path.join` modelled as separator concatenation. -/
def generateOutputName (inputFile outputDir format : List Char) : List Char :=
  outputDir ++ '/' ::
    (parseNameChars inputFile ++ "_watermarked.".toList ++ format)

/-- Status of one batch item after the loop body of `main`
(src/index.js lines 404-450) has handled it. -/
inductive ItemStatus
  /-- The watermark was applied and the output file written. -/
  | done
  /-- Status when `applyWatermark` threw; the error was logged and the loop went on. -/
  | failed
deriving DecidableEq

/-- Embedding of the batch loop of `main` (src/index.js lines 404-450)
restricted to its error handling: each file is processed by `apply`
(the `applyWatermark` call, which either succeeds or throws an error
message); a thrown error is caught, the line `inputPath - message` is
appended to the error log, and iteration continues.  The first
component is the final content of `error.log`, whose initial value `[]`
models the truncation at batch start (src/index.js line 397); the
second records the terminal status of each file in order. -/
def runBatch (app : List Char → Except (List Char) Unit) :
    List (List Char) → List (List Char) × List ItemStatus
  | [] => ([], [])
  | f :: fs =>
    let rest := runBatch app fs
    match app f with
    | Except.ok _ => (rest.1, ItemStatus.done :: rest.2)
    | Except.error m =>
      ((f ++ " - ".toList ++ m) :: rest.1, ItemStatus.failed :: rest.2)

/-- Embedding of the conflict check of the batch loop
(src/index.js lines 417-431): when the output path exists, overwrite-all
proceeds, skip-all does not, and ask-each-time proceeds exactly when the
lowercased answer is `y`; when it does not exist, processing always
proceeds. -/
def decideProceed (overwriteAll skipAll : Bool) (outputExists : Bool)
    (answer : List Char) : Bool :=
  if outputExists then
    if overwriteAll then true
    else if skipAll then false
    else if jsToLower answer = "y".toList then true else false
  else true

/-- The file written by one iteration of the batch loop
(src/index.js lines 433-439): when `decideProceed` is false the loop
`continue`s without touching the output path; otherwise
`applyWatermark` writes `outputPath`. -/
def itemAction (overwriteAll skipAll : Bool) (outputExists : Bool)
    (answer : List Char) (outputPath : List Char) : Option (List Char) :=
  if decideProceed overwriteAll skipAll outputExists answer then some outputPath
  else none

theorem runBatch_log (app : List Char → Except (List Char) Unit)
    (files : List (List Char)) :
    (runBatch app files).1 =
      files.filterMap (fun f =>
        match app f with
        | Except.ok _ => none
        | Except.error m => some (f ++ " - ".toList ++ m)) := by
  induction files with
  | nil => rfl
  | cons f fs ih =>
    cases happ : app f <;> simp [runBatch, happ, ih]

theorem runBatch_visits_all (app : List Char → Except (List Char) Unit)
    (files : List (List Char)) :
    (runBatch app files).2.length = files.length := by
  induction files with
  | nil => rfl
  | cons f fs ih =>
    cases happ : app f <;> simp [runBatch, happ, ih]

theorem runBatch_done_count (app : List Char → Except (List Char) Unit)
    (files : List (List Char)) :
    (runBatch app files).2.count ItemStatus.done =
      files.countP (fun f =>
        match app f with
        | Except.ok _ => true
        | Except.error _ => false) := by
  induction files with
  | nil => rfl
  | cons f fs ih =>
    cases happ : app f <;>
      simp [runBatch, happ, ih, List.count_cons, List.countP_cons]

/-- C5: in the batch loop every per-file exception is caught and turned
into the `error.log` line `inputPath - message`, the log starts from the
truncated (empty) state, iteration reaches every file (the status list
has one terminal entry per input file, so no failure aborts the batch),
the successes are exactly the files whose processing did not throw, and
in the 3-file scenario with one decode failure the other two files
succeed while `error.log` holds exactly the one line for the failing
file. -/
theorem main_error_isolation (app : List Char → Except (List Char) Unit)
    (files : List (List Char)) :
    (runBatch app files).1 =
      files.filterMap (fun f =>
        match app f with
        | Except.ok _ => none
        | Except.error m => some (f ++ " - ".toList ++ m)) ∧
    (runBatch app files).2.length = files.length ∧
    (runBatch app files).2.count ItemStatus.done =
      files.countP (fun f =>
        match app f with
        | Except.ok _ => true
        | Except.error _ => false) ∧
    (runBatch
        (fun f => if f = "b.jpg".toList then
            Except.error "decode failure".toList
          else Except.ok ())
        ["a.jpg".toList, "b.jpg".toList, "c.jpg".toList]).1 =
      ["b.jpg - decode failure".toList] ∧
    (runBatch
        (fun f => if f = "b.jpg".toList then
            Except.error "decode failure".toList
          else Except.ok ())
        ["a.jpg".toList, "b.jpg".toList, "c.jpg".toList]).2 =
      [ItemStatus.done, ItemStatus.failed, ItemStatus.done] := by
  exact ⟨runBatch_log app files, runBatch_visits_all app files,
    runBatch_done_count app files, by decide, by decide⟩

/-- C6: when the output file already exists, skip-all never lets the
item write (the output path is untouched), overwrite-all always lets it
write the output path, and ask-each-time writes exactly when the
answer of the operator lowercases to `y`. -/
theorem main_conflict_policy (answer outputPath : List Char) :
    itemAction false true true answer outputPath = none ∧
    itemAction true false true answer outputPath = some outputPath ∧
    (itemAction false false true answer outputPath = some outputPath ↔
      jsToLower answer = "y".toList) := by
  refine ⟨rfl, rfl, ?_⟩
  by_cases h : jsToLower answer = "y".toList <;>
    simp [itemAction, decideProceed, h]

/-- C7: a user-specified output format that is one of `jpg`/`jpeg`/`png`
is used for the file; otherwise the lowercased extension of the file itself is
used with `jpeg` normalized to `jpg`; the output path is
`outputDir/<name>_watermarked.<format>`; and an empty format input with
a `.png` source yields a `.png` output file. -/
theorem main_output_format_and_path (inputFile outDir format : List Char)
    (hsup : isSupportedImage inputFile = true) :
    (format ∈ validFormats → resolveOutFormat format inputFile = format) ∧
    (format ∉ validFormats →
      resolveOutFormat format inputFile =
        (let ext := replaceFirst '.' (jsToLower (extnameChars inputFile))
         if ext = "jpeg".toList then "jpg".toList else ext)) ∧
    generateOutputName inputFile outDir (resolveOutFormat format inputFile) =
      outDir ++ '/' :: (parseNameChars inputFile ++ "_watermarked.".toList
        ++ resolveOutFormat format inputFile) ∧
    generateOutputName "photo.png".toList "out".toList
        (resolveOutFormat [] "photo.png".toList) =
      "out/photo_watermarked.png".toList := by
  refine ⟨?_, ?_, rfl, by decide⟩
  · intro hmem
    simp [resolveOutFormat, hmem]
  · intro hmem
    simp [resolveOutFormat, hmem]

/-- Witness for `main_output_format_and_path`: `photo.png` is a
supported image, the specified format `jpg` is used as given, and the
empty format yields the `.png` output path. -/
theorem main_output_format_and_path_witness :
    isSupportedImage "photo.png".toList = true ∧
    resolveOutFormat "jpg".toList "photo.png".toList = "jpg".toList ∧
    generateOutputName "photo.png".toList "out".toList
        (resolveOutFormat [] "photo.png".toList) =
      "out/photo_watermarked.png".toList := by
  refine ⟨by decide, ?_, ?_⟩
  · exact (main_output_format_and_path "photo.png".toList "out".toList
      "jpg".toList (by decide)).1 (by decide)
  · exact (main_output_format_and_path "photo.png".toList "out".toList
      "jpg".toList (by decide)).2.2.2

/-- C10: any output-format input whose lowercased form is not exactly
`jpg`, `jpeg` or `png` is silently ignored — the per-file format
resolution on the lowercased input (the only form `main` keeps, line
324) coincides with the resolution on empty input, so each file falls
back to its own extension with `jpeg` normalized to `jpg`. -/
theorem main_unrecognized_format_ignored (format inputFile : List Char)
    (h : jsToLower format ∉ validFormats) :
    resolveOutFormat (jsToLower format) inputFile =
      resolveOutFormat [] inputFile := by
  have hempty : ([] : List Char) ∉ validFormats := by decide
  simp [resolveOutFormat, h, hempty]

/-- Witness for `main_unrecognized_format_ignored`: the input `GIF`
lowercases to `gif`, is not a recognized format, and resolves exactly
as the empty input does (a `.png` source keeps `png`). -/
theorem main_unrecognized_format_ignored_witness :
    resolveOutFormat (jsToLower "GIF".toList) "a.png".toList =
      resolveOutFormat [] "a.png".toList ∧
    resolveOutFormat (jsToLower "GIF".toList) "a.png".toList =
      "png".toList := by
  refine ⟨main_unrecognized_format_ignored "GIF".toList "a.png".toList
    (by decide), by decide⟩

end WatermarkCLI
